import Mathlib

/-!
Verification development for the lab-inventory camera pipeline.

The definitions below are shallow embeddings of the TypeScript source:
numeric values of the model runtime (Float32Array elements, canvas byte
samples, timestamps) are modelled as rationals, byte samples as naturals,
typed arrays as lists or as index functions, and the mutable refs of the
render loop as explicit state records driven by event steps.
-/

set_option allowUnsafeReducibility true in
attribute [semireducible] Rat.add Rat.mul Rat.sub Rat.inv Rat.ofScientific

namespace LabInventory

/-- Class list from data/ItemCards.ts (`CLASS_NAMES`). -/
def CLASS_NAMES : List String :=
  ["Arduino Uno R3",
   "Breadboard",
   "Photoresistor, Light-Dependent Resistor (LDR)",
   "PIR Motion Sensor HC-SR501",
   "Solenoid",
   "Ultrasonic Distance Sensor HC-SR04"]

/-- `CONFIDENCE_THRESHOLD = 0.5` from data/ItemCards.ts. -/
def CONFIDENCE_THRESHOLD : ℚ := 1 / 2

/-- `INPUT_SIZE = 640` from data/ItemCards.ts. -/
def INPUT_SIZE : ℕ := 640

/-- `INFERENCE_INTERVAL_MS = 500` from the CameraFeed component. -/
def INFERENCE_INTERVAL_MS : ℚ := 500

/-- `BRIGHTNESS_THRESHOLD = 15` from the MotionDetectionCamera component. -/
def BRIGHTNESS_THRESHOLD : ℚ := 15

/-- `MODEL_DURATION_MS = 3000` from the MotionDetectionCamera component. -/
def MODEL_DURATION_MS : ℕ := 3000

/-- The `Detection` interface of the CameraFeed component. -/
structure Detection where
  classId : ℕ
  className : String
  confidence : ℚ
  bbox : ℚ × ℚ × ℚ × ℚ
deriving DecidableEq, Repr

/-- `const numDetections = 8400` inside `processOutput`. -/
def numDetections : ℕ := 8400

/-- `const numClasses = CLASS_NAMES.length` inside `processOutput`. -/
def numClasses : ℕ := CLASS_NAMES.length

/-- `CLASS_NAMES[classId] || "Class " + classId`: a missing entry
(JavaScript `undefined`, modelled by the `getD` default `""`) and the
empty string are both falsy, so both fall back to the template string. -/
def classNameFor (classId : ℕ) : String :=
  let name := CLASS_NAMES.getD classId ""
  if name = "" then "Class " ++ toString classId else name

/-- The inner class-score loop of `processOutput`: starting from
`maxScore = 0, classId = 0`, scan `j = 0 .. numClasses - 1`, reading the
score of class `j` at `output[(4 + j) * numDetections + i]` and updating
on a strict increase. -/
def bestClass (output : ℕ → ℚ) (i : ℕ) : ℚ × ℕ :=
  (List.range numClasses).foldl
    (fun acc j =>
      let score := output ((4 + j) * numDetections + i)
      if score > acc.1 then (score, j) else acc)
    (0, 0)

/-- One iteration of the `processOutput` candidate loop: read the box
`x, y, w, h` at the four parallel coordinate arrays, find the best class,
and keep the candidate only when `maxScore > CONFIDENCE_THRESHOLD`. -/
def candidateDetection (output : ℕ → ℚ) (imgWidth imgHeight : ℚ) (i : ℕ) :
    Option Detection :=
  let x := output i
  let y := output (numDetections + i)
  let w := output (2 * numDetections + i)
  let h := output (3 * numDetections + i)
  let best := bestClass output i
  if best.1 > CONFIDENCE_THRESHOLD then
    some { classId := best.2
           className := classNameFor best.2
           confidence := best.1
           bbox := (((x - w / 2) * imgWidth) / (INPUT_SIZE : ℚ),
                    ((y - h / 2) * imgHeight) / (INPUT_SIZE : ℚ),
                    (w * imgWidth) / (INPUT_SIZE : ℚ),
                    (h * imgHeight) / (INPUT_SIZE : ℚ)) }
  else none

/-- `processOutput(output, imgWidth, imgHeight)`: the loop
`for (i = 0; i < numDetections; i++)` pushing the kept candidates in
order. -/
def processOutput (output : ℕ → ℚ) (imgWidth imgHeight : ℚ) : List Detection :=
  (List.range numDetections).filterMap (candidateDetection output imgWidth imgHeight)

/-! ### The class-score scan, generalized

`bestFold S n` is the scan of `bestClass` with the score lookup
abstracted into `S`; `bestClass output i` is the instance
`S j = output ((4 + j) * numDetections + i)`, `n = numClasses`. -/

/-- The `maxScore` / `classId` scan of `processOutput`, over an abstract
score function. -/
def bestFold (S : ℕ → ℚ) (n : ℕ) : ℚ × ℕ :=
  (List.range n).foldl (fun acc j => if S j > acc.1 then (S j, j) else acc) (0, 0)

lemma bestClass_eq_bestFold (output : ℕ → ℚ) (i : ℕ) :
    bestClass output i = bestFold (fun j => output ((4 + j) * numDetections + i)) numClasses :=
  rfl

lemma bestFold_zero (S : ℕ → ℚ) : bestFold S 0 = (0, 0) := rfl

lemma bestFold_succ (S : ℕ → ℚ) (n : ℕ) :
    bestFold S (n + 1) = if S n > (bestFold S n).1 then (S n, n) else bestFold S n := by
  simp [bestFold, List.range_succ]

lemma bestFold_nonneg (S : ℕ → ℚ) (n : ℕ) : 0 ≤ (bestFold S n).1 := by
  induction n with
  | zero => simp [bestFold_zero]
  | succ n ih =>
    rw [bestFold_succ]
    split
    · exact le_of_lt (lt_of_le_of_lt ih (by assumption))
    · exact ih

lemma bestFold_ge (S : ℕ → ℚ) (n : ℕ) : ∀ k < n, S k ≤ (bestFold S n).1 := by
  induction n with
  | zero => intro k hk; omega
  | succ n ih =>
    intro k hk
    rw [bestFold_succ]
    split
    · next hlt =>
      rcases Nat.lt_succ_iff_lt_or_eq.1 hk with hk' | hk'
      · exact le_of_lt (lt_of_le_of_lt (ih k hk') hlt)
      · subst hk'; exact le_refl _
    · next hnlt =>
      rcases Nat.lt_succ_iff_lt_or_eq.1 hk with hk' | hk'
      · exact ih k hk'
      · subst hk'; exact le_of_not_lt hnlt

lemma bestFold_argmax (S : ℕ → ℚ) (n : ℕ) (h : 0 < (bestFold S n).1) :
    (bestFold S n).2 < n ∧ S (bestFold S n).2 = (bestFold S n).1 ∧
      ∀ k < (bestFold S n).2, S k < (bestFold S n).1 := by
  induction n with
  | zero => simp [bestFold_zero] at h
  | succ n ih =>
    rw [bestFold_succ] at h ⊢
    by_cases hlt : S n > (bestFold S n).1
    · rw [if_pos hlt] at h ⊢
      refine ⟨Nat.lt_succ_self n, rfl, ?_⟩
      intro k hk
      exact lt_of_le_of_lt (bestFold_ge S n k hk) hlt
    · rw [if_neg hlt] at h ⊢
      obtain ⟨h1, h2, h3⟩ := ih h
      exact ⟨Nat.lt_succ_of_lt h1, h2, h3⟩

lemma bestFold_fst_eq_foldl_max (S : ℕ → ℚ) (n : ℕ) :
    (bestFold S n).1 = ((List.range n).map S).foldl max 0 := by
  induction n with
  | zero => simp [bestFold_zero]
  | succ n ih =>
    rw [bestFold_succ, List.range_succ, List.map_append, List.foldl_append]
    simp only [List.map_cons, List.map_nil, List.foldl_cons, List.foldl_nil]
    rw [← ih]
    by_cases hlt : S n > (bestFold S n).1
    · rw [if_pos hlt, max_eq_right (le_of_lt hlt)]
    · rw [if_neg hlt, max_eq_left (le_of_not_lt hlt)]

/-! ### Inversion of the candidate loop body -/

lemma candidateDetection_eq_some {output : ℕ → ℚ} {w h : ℚ} {i : ℕ} {d : Detection}
    (hd : candidateDetection output w h i = some d) :
    CONFIDENCE_THRESHOLD < (bestClass output i).1 ∧
    d.classId = (bestClass output i).2 ∧
    d.className = classNameFor (bestClass output i).2 ∧
    d.confidence = (bestClass output i).1 ∧
    d.bbox = (((output i - output (2 * numDetections + i) / 2) * w) / (INPUT_SIZE : ℚ),
              ((output (numDetections + i) - output (3 * numDetections + i) / 2) * h) /
                (INPUT_SIZE : ℚ),
              (output (2 * numDetections + i) * w) / (INPUT_SIZE : ℚ),
              (output (3 * numDetections + i) * h) / (INPUT_SIZE : ℚ)) := by
  simp only [candidateDetection] at hd
  split at hd
  · cases hd
    exact ⟨by assumption, rfl, rfl, rfl, rfl⟩
  · cases hd

lemma mem_processOutput {output : ℕ → ℚ} {w h : ℚ} {i : ℕ} {d : Detection}
    (hi : i < numDetections) (hd : candidateDetection output w h i = some d) :
    d ∈ processOutput output w h := by
  unfold processOutput
  exact List.mem_filterMap.2 ⟨i, List.mem_range.2 hi, hd⟩

/-! ### Claim C1 -/

/-- Claim C1: for every raw model output and every candidate index `i`
that `processOutput` keeps, the emitted detection is in the output list,
its confidence is the running maximum of the class scores read at
elements `(4 + j) * numDetections + i`, and its bbox equals
`((x - w/2) * displayWidth / INPUT_SIZE, (y - h/2) * displayHeight / INPUT_SIZE,
w * displayWidth / INPUT_SIZE, h * displayHeight / INPUT_SIZE)` where
`x = output[i]`, `y = output[numDetections + i]`,
`w = output[2 * numDetections + i]`, `h = output[3 * numDetections + i]`. -/
theorem C1_postprocess_layout (output : ℕ → ℚ) (w h : ℚ) (i : ℕ) (d : Detection)
    (hi : i < numDetections) (hd : candidateDetection output w h i = some d) :
    d ∈ processOutput output w h ∧
    d.confidence =
      ((List.range numClasses).map (fun j => output ((4 + j) * numDetections + i))).foldl max 0 ∧
    d.bbox = (((output i - output (2 * numDetections + i) / 2) * w) / (INPUT_SIZE : ℚ),
              ((output (numDetections + i) - output (3 * numDetections + i) / 2) * h) /
                (INPUT_SIZE : ℚ),
              (output (2 * numDetections + i) * w) / (INPUT_SIZE : ℚ),
              (output (3 * numDetections + i) * h) / (INPUT_SIZE : ℚ)) := by
  obtain ⟨hc, hcid, hcn, hconf, hbbox⟩ := candidateDetection_eq_some hd
  exact ⟨mem_processOutput hi hd,
         by rw [hconf, bestClass_eq_bestFold, bestFold_fst_eq_foldl_max],
         hbbox⟩

/-- Concrete raw output: candidate 0 has box `(0, 0, 0, 0)` and score
`3/5` for class 0; everything else is zero. -/
def c1Output : ℕ → ℚ := fun n => if n = 4 * numDetections then 3 / 5 else 0

/-- The detection `processOutput` emits for candidate 0 of `c1Output`. -/
def c1Detection : Detection :=
  { classId := 0, className := "Arduino Uno R3", confidence := 3 / 5, bbox := (0, 0, 0, 0) }

theorem C1_postprocess_layout_witness :
    candidateDetection c1Output 640 480 0 = some c1Detection ∧
    c1Detection ∈ processOutput c1Output 640 480 :=
  ⟨by decide, (C1_postprocess_layout c1Output 640 480 0 c1Detection (by decide) (by decide)).1⟩

/-! ### Claim C7 -/

/-- Claim C7: a candidate is kept by `processOutput` only when its
winning class confidence strictly exceeds `CONFIDENCE_THRESHOLD`: a
candidate whose maximum class score equals the threshold exactly is
excluded (the loop body yields nothing), and one whose maximum is
strictly greater yields a detection, which is in the output list. -/
theorem C7_threshold_boundary (output : ℕ → ℚ) (w h : ℚ) (i : ℕ) (hi : i < numDetections) :
    ((bestClass output i).1 = CONFIDENCE_THRESHOLD → candidateDetection output w h i = none) ∧
    (CONFIDENCE_THRESHOLD < (bestClass output i).1 →
      (candidateDetection output w h i).isSome = true) ∧
    (CONFIDENCE_THRESHOLD < (bestClass output i).1 →
      ∀ d, candidateDetection output w h i = some d → d ∈ processOutput output w h) := by
  refine ⟨?_, ?_, ?_⟩
  · intro heq
    simp only [candidateDetection]
    rw [if_neg]
    rw [heq]
    exact lt_irrefl _
  · intro hc
    simp only [candidateDetection]
    rw [if_pos hc]
    rfl
  · intro _ d hd
    exact mem_processOutput hi hd

/-- Concrete raw output: candidate 0 scores exactly `1/2` (the
threshold) for class 0, zero elsewhere. -/
def c7Output : ℕ → ℚ := fun n => if n = 4 * numDetections then 1 / 2 else 0

theorem C7_threshold_boundary_witness :
    candidateDetection c7Output 640 480 0 = none ∧
    (candidateDetection c1Output 640 480 0).isSome = true :=
  ⟨(C7_threshold_boundary c7Output 640 480 0 (by decide)).1 (by decide),
   (C7_threshold_boundary c1Output 640 480 0 (by decide)).2.1 (by decide)⟩

/-! ### Claim C8 -/

/-- Claim C8: if a kept candidate has a class `j` attaining the maximum
score (in particular when several classes tie at the maximum), the
emitted detection's class index attains that same score and every
strictly smaller class index has a strictly smaller score — i.e. the
loop picks the lowest class index attaining the maximum. -/
theorem C8_tiebreak (output : ℕ → ℚ) (w h : ℚ) (i : ℕ) (d : Detection) (j : ℕ)
    (hd : candidateDetection output w h i = some d) (hj : j < numClasses)
    (hmax : ∀ k, k < numClasses →
      output ((4 + k) * numDetections + i) ≤ output ((4 + j) * numDetections + i)) :
    d.classId < numClasses ∧
    output ((4 + d.classId) * numDetections + i) = output ((4 + j) * numDetections + i) ∧
    ∀ k, k < d.classId →
      output ((4 + k) * numDetections + i) < output ((4 + j) * numDetections + i) := by
  obtain ⟨hc, hcid, -, -, -⟩ := candidateDetection_eq_some hd
  rw [bestClass_eq_bestFold] at hc hcid
  have hpos : 0 < (bestFold (fun k => output ((4 + k) * numDetections + i)) numClasses).1 :=
    lt_trans (by norm_num [CONFIDENCE_THRESHOLD]) hc
  obtain ⟨h1, h2, h3⟩ := bestFold_argmax (fun k => output ((4 + k) * numDetections + i))
    numClasses hpos
  have hle1 : output ((4 + j) * numDetections + i) ≤
      (bestFold (fun k => output ((4 + k) * numDetections + i)) numClasses).1 :=
    bestFold_ge _ numClasses j hj
  have hle2 : (bestFold (fun k => output ((4 + k) * numDetections + i)) numClasses).1 ≤
      output ((4 + j) * numDetections + i) := by
    rw [← h2]
    exact hmax _ h1
  have heq : (bestFold (fun k => output ((4 + k) * numDetections + i)) numClasses).1 =
      output ((4 + j) * numDetections + i) := le_antisymm hle2 hle1
  rw [hcid]
  refine ⟨h1, by rw [h2, heq], ?_⟩
  intro k hk
  rw [← heq]
  exact h3 k hk

/-- Concrete raw output: candidate 0 scores `3/5` for both class 0 and
class 1 (a tie at the maximum), zero elsewhere. -/
def c8Output : ℕ → ℚ :=
  fun n => if n = 4 * numDetections then 3 / 5
           else if n = 5 * numDetections then 3 / 5 else 0

/-- The detection emitted for candidate 0 of `c8Output`: the lower of
the two tied classes wins. -/
def c8Detection : Detection :=
  { classId := 0, className := "Arduino Uno R3", confidence := 3 / 5, bbox := (0, 0, 0, 0) }

theorem C8_tiebreak_witness :
    candidateDetection c8Output 640 480 0 = some c8Detection ∧
    c8Output ((4 + c8Detection.classId) * numDetections + 0) =
      c8Output ((4 + 1) * numDetections + 0) ∧
    c8Detection.classId < numClasses :=
  ⟨by decide,
   (C8_tiebreak c8Output 640 480 0 c8Detection 1 (by decide) (by decide) (by decide)).2.1,
   (C8_tiebreak c8Output 640 480 0 c8Detection 1 (by decide) (by decide) (by decide)).1⟩

/-! ### Claim C10 -/

/-- Claim C10: every emitted detection's `className` is computed by the
`CLASS_NAMES[classId] || fallback` rule: the class-list entry when it
exists and is non-empty, and the string `"Class <classId>"` when the
index is outside the list or the listed name is empty. -/
theorem C10_classname_fallback (output : ℕ → ℚ) (w h : ℚ) (i : ℕ) (d : Detection)
    (hd : candidateDetection output w h i = some d) :
    d.className = classNameFor d.classId ∧
    (∀ c, c < CLASS_NAMES.length → CLASS_NAMES.getD c "" ≠ "" →
      classNameFor c = CLASS_NAMES.getD c "") ∧
    (∀ c, CLASS_NAMES.length ≤ c → classNameFor c = "Class " ++ toString c) ∧
    (∀ c, CLASS_NAMES.getD c "" = "" → classNameFor c = "Class " ++ toString c) := by
  obtain ⟨-, hcid, hcn, -, -⟩ := candidateDetection_eq_some hd
  refine ⟨by rw [hcn, hcid], ?_, ?_, ?_⟩
  · intro c _ hne
    simp only [classNameFor]
    rw [if_neg hne]
  · intro c hc
    simp only [classNameFor]
    rw [List.getD_eq_default _ _ hc]
    simp
  · intro c hc
    simp only [classNameFor]
    rw [if_pos hc]

theorem C10_classname_fallback_witness :
    candidateDetection c1Output 640 480 0 = some c1Detection ∧
    c1Detection.className = classNameFor c1Detection.classId :=
  ⟨by decide, (C10_classname_fallback c1Output 640 480 0 c1Detection (by decide)).1⟩

/-! ### Claim C4 -/

/-- The box `(x, y, w, h)` lies within the `[0, W] × [0, H]` rectangle. -/
def bboxWithin (b : ℚ × ℚ × ℚ × ℚ) (W H : ℚ) : Prop :=
  0 ≤ b.1 ∧ 0 ≤ b.2.1 ∧ 0 ≤ b.2.2.1 ∧ 0 ≤ b.2.2.2 ∧
  b.1 + b.2.2.1 ≤ W ∧ b.2.1 + b.2.2.2 ≤ H

/-- The hypothesis of claim C4 as stated: every candidate-coordinate
element of the raw output lies in `[0, INPUT_SIZE]`. -/
def coordsInRange (output : ℕ → ℚ) : Prop :=
  ∀ n, n < 4 * numDetections → 0 ≤ output n ∧ output n ≤ (INPUT_SIZE : ℚ)

/-- Candidate 0 is centered at `(0, 0)` with width 640: all coordinate
elements are in `[0, INPUT_SIZE]`, but the decoded box sticks out to the
left of the display. -/
def c4BadOutput : ℕ → ℚ :=
  fun n => if n = 2 * numDetections then 640
           else if n = 4 * numDetections then 3 / 5 else 0

/-- The detection emitted for candidate 0 of `c4BadOutput`: its left
edge is at `-320`, outside `[0, 640]`. -/
def c4BadDetection : Detection :=
  { classId := 0, className := "Arduino Uno R3", confidence := 3 / 5,
    bbox := (-320, 0, 640, 0) }

/-- Claim C4 as stated is false: `c4BadOutput` has every candidate
coordinate inside `[0, INPUT_SIZE]`, yet `processOutput` emits a
detection whose bbox is not within `[0, 640] × [0, 640]`. -/
theorem C4_counterexample :
    coordsInRange c4BadOutput ∧
    c4BadDetection ∈ processOutput c4BadOutput 640 640 ∧
    ¬ bboxWithin c4BadDetection.bbox 640 640 := by
  refine ⟨?_, @mem_processOutput c4BadOutput 640 640 0 c4BadDetection (by decide) (by decide), ?_⟩
  · intro n hn
    have h4 : 4 * numDetections = 33600 := by norm_num [numDetections]
    simp only [c4BadOutput]
    split
    · norm_num [INPUT_SIZE]
    · rw [if_neg (by omega)]
      norm_num [INPUT_SIZE]
  · intro hc
    have h1 := hc.1
    norm_num [c4BadDetection] at h1

/-- Claim C4, amended: if additionally each candidate box — as a box,
center `±` half-extent — lies inside the model input square
`[0, INPUT_SIZE]²` and the display dimensions are nonnegative, then
every emitted bbox lies within `[0, W] × [0, H]`. -/
theorem C4_bbox_bounds (output : ℕ → ℚ) (W H : ℚ) (hW : 0 ≤ W) (hH : 0 ≤ H)
    (hbox : ∀ i, i < numDetections →
      0 ≤ output (2 * numDetections + i) ∧ 0 ≤ output (3 * numDetections + i) ∧
      0 ≤ output i - output (2 * numDetections + i) / 2 ∧
      output i + output (2 * numDetections + i) / 2 ≤ (INPUT_SIZE : ℚ) ∧
      0 ≤ output (numDetections + i) - output (3 * numDetections + i) / 2 ∧
      output (numDetections + i) + output (3 * numDetections + i) / 2 ≤ (INPUT_SIZE : ℚ)) :
    ∀ d ∈ processOutput output W H, bboxWithin d.bbox W H := by
  intro d hd
  obtain ⟨i, hir, hci⟩ := List.mem_filterMap.1 hd
  have hi : i < numDetections := List.mem_range.1 hir
  obtain ⟨hw0, hh0, hx0, hx1, hy0, hy1⟩ := hbox i hi
  obtain ⟨-, -, -, -, hbbox⟩ := candidateDetection_eq_some hci
  have hsz : (0 : ℚ) < (INPUT_SIZE : ℚ) := by norm_num [INPUT_SIZE]
  rw [hbbox]
  refine ⟨?_, ?_, ?_, ?_, ?_, ?_⟩
  · exact div_nonneg (mul_nonneg hx0 hW) (le_of_lt hsz)
  · exact div_nonneg (mul_nonneg hy0 hH) (le_of_lt hsz)
  · exact div_nonneg (mul_nonneg hw0 hW) (le_of_lt hsz)
  · exact div_nonneg (mul_nonneg hh0 hH) (le_of_lt hsz)
  · have hsum : ((output i - output (2 * numDetections + i) / 2) * W) / (INPUT_SIZE : ℚ) +
        (output (2 * numDetections + i) * W) / (INPUT_SIZE : ℚ) =
        ((output i + output (2 * numDetections + i) / 2) * W) / (INPUT_SIZE : ℚ) := by
      ring
    rw [hsum, div_le_iff₀ hsz]
    calc (output i + output (2 * numDetections + i) / 2) * W
        ≤ (INPUT_SIZE : ℚ) * W := mul_le_mul_of_nonneg_right hx1 hW
      _ = W * (INPUT_SIZE : ℚ) := mul_comm _ _
  · have hsum : ((output (numDetections + i) - output (3 * numDetections + i) / 2) * H) /
        (INPUT_SIZE : ℚ) + (output (3 * numDetections + i) * H) / (INPUT_SIZE : ℚ) =
        ((output (numDetections + i) + output (3 * numDetections + i) / 2) * H) /
          (INPUT_SIZE : ℚ) := by
      ring
    rw [hsum, div_le_iff₀ hsz]
    calc (output (numDetections + i) + output (3 * numDetections + i) / 2) * H
        ≤ (INPUT_SIZE : ℚ) * H := mul_le_mul_of_nonneg_right hy1 hH
      _ = H * (INPUT_SIZE : ℚ) := mul_comm _ _

/-- Concrete raw output whose candidate boxes all lie inside the model
input square: every coordinate element is 320 (boxes centered at
`(320, 320)`, 320 wide and high), and class 0 of every candidate scores
`3/5`. -/
def c4GoodOutput : ℕ → ℚ :=
  fun n => if n < 4 * numDetections then 320
           else if n < 5 * numDetections then 3 / 5 else 0

/-- The detection emitted for candidate 0 of `c4GoodOutput`. -/
def c4GoodDetection : Detection :=
  { classId := 0, className := "Arduino Uno R3", confidence := 3 / 5,
    bbox := (160, 160, 320, 320) }

theorem C4_bbox_bounds_witness :
    c4GoodDetection ∈ processOutput c4GoodOutput 640 640 ∧
    bboxWithin c4GoodDetection.bbox 640 640 := by
  have hmem : c4GoodDetection ∈ processOutput c4GoodOutput 640 640 :=
    @mem_processOutput c4GoodOutput 640 640 0 c4GoodDetection (by decide) (by decide)
  refine ⟨hmem, C4_bbox_bounds c4GoodOutput 640 640 (by norm_num) (by norm_num) ?_
    c4GoodDetection hmem⟩
  intro i hi
  have hnd : numDetections = 8400 := rfl
  have e1 : c4GoodOutput i = 320 := by
    simp only [c4GoodOutput]; rw [if_pos (by omega)]
  have e2 : c4GoodOutput (numDetections + i) = 320 := by
    simp only [c4GoodOutput]; rw [if_pos (by omega)]
  have e3 : c4GoodOutput (2 * numDetections + i) = 320 := by
    simp only [c4GoodOutput]; rw [if_pos (by omega)]
  have e4 : c4GoodOutput (3 * numDetections + i) = 320 := by
    simp only [c4GoodOutput]; rw [if_pos (by omega)]
  rw [e1, e2, e3, e4]
  norm_num [INPUT_SIZE]

/-! ### Tensor codec: preprocessing

`preprocessImage` walks the interleaved RGBA byte buffer
(`for (i = 0; i < data.length; i += 4)`, `idx = i / 4`) and stores the
three normalized channel samples of pixel `idx` into a planar
`Float32Array` of length `3 * INPUT_SIZE * INPUT_SIZE`. The typed
arrays are modelled as lists: `List.set` discards an out-of-range
store and `List.getD _ 0` reads with a zero default. -/

/-- The body of the `preprocessImage` pixel loop for pixel `idx`:
`input[idx] = data[4idx]/255; input[pixelCount+idx] = data[4idx+1]/255;
input[2*pixelCount+idx] = data[4idx+2]/255` (alpha, `data[4idx+3]`, is
never read). -/
def writePixel (data : List ℕ) (pixelCount : ℕ) (input : List ℚ) (idx : ℕ) : List ℚ :=
  ((input.set idx ((data.getD (4 * idx) 0 : ℚ) / 255)).set
      (pixelCount + idx) ((data.getD (4 * idx + 1) 0 : ℚ) / 255)).set
    (2 * pixelCount + idx) ((data.getD (4 * idx + 2) 0 : ℚ) / 255)

/-- The pixel loop of `preprocessImage`, generalized over the pixel
count written to and the number of loop iterations. -/
def fillPixels (data : List ℕ) (pc n : ℕ) : List ℚ :=
  (List.range n).foldl (writePixel data pc) (List.replicate (3 * pc) 0)

/-- `preprocessImage(ctx)` on the RGBA byte buffer of the
`INPUT_SIZE × INPUT_SIZE` canvas. -/
def preprocessImage (data : List ℕ) : List ℚ :=
  fillPixels data (INPUT_SIZE * INPUT_SIZE) (data.length / 4)

lemma getD_set_eq {α : Type} {l : List α} {i : ℕ} {v d : α} (h : i < l.length) :
    (l.set i v).getD i d = v := by
  simp [List.getD_eq_getElem?_getD, List.getElem?_set_self h]

lemma getD_set_ne {α : Type} {l : List α} {i p : ℕ} {v d : α} (h : i ≠ p) :
    (l.set i v).getD p d = l.getD p d := by
  simp [List.getD_eq_getElem?_getD, List.getElem?_set_ne h]

lemma getD_replicate {α : Type} (n p : ℕ) (a d : α) :
    (List.replicate n a).getD p d = if p < n then a else d := by
  rcases Nat.lt_or_ge p n with h | h
  · simp [List.getD_eq_getElem?_getD, List.getElem?_replicate, h]
  · rw [List.getD_eq_default _ _ (by simpa using h), if_neg (by omega)]

lemma fillPixels_succ (data : List ℕ) (pc n : ℕ) :
    fillPixels data pc (n + 1) = writePixel data pc (fillPixels data pc n) n := by
  simp [fillPixels, List.range_succ]

lemma fillPixels_length (data : List ℕ) (pc n : ℕ) :
    (fillPixels data pc n).length = 3 * pc := by
  induction n with
  | zero => simp [fillPixels]
  | succ n ih => rw [fillPixels_succ, writePixel]; simp [ih]

lemma fillPixels_getD (data : List ℕ) (pc : ℕ) (n : ℕ) (hn : n ≤ pc) (p : ℕ) :
    (fillPixels data pc n).getD p 0 =
      if p < n then (data.getD (4 * p) 0 : ℚ) / 255
      else if pc ≤ p ∧ p < pc + n then (data.getD (4 * (p - pc) + 1) 0 : ℚ) / 255
      else if 2 * pc ≤ p ∧ p < 2 * pc + n then (data.getD (4 * (p - 2 * pc) + 2) 0 : ℚ) / 255
      else 0 := by
  induction n with
  | zero =>
    rw [show fillPixels data pc 0 = List.replicate (3 * pc) 0 from rfl, getD_replicate]
    split_ifs <;> first | rfl | omega
  | succ n ih =>
    have hn' : n ≤ pc := Nat.le_of_succ_le hn
    have hlen : (fillPixels data pc n).length = 3 * pc := fillPixels_length data pc n
    rw [fillPixels_succ, writePixel]
    by_cases h2 : p = 2 * pc + n
    · subst h2
      rw [getD_set_eq (by rw [List.length_set, List.length_set, hlen]; omega)]
      rw [if_neg (by omega), if_neg (by omega), if_pos (by omega),
        show 2 * pc + n - 2 * pc = n from by omega]
    · rw [getD_set_ne (by omega)]
      by_cases h1 : p = pc + n
      · subst h1
        rw [getD_set_eq (by rw [List.length_set, hlen]; omega)]
        rw [if_neg (by omega), if_pos (by omega), show pc + n - pc = n from by omega]
      · rw [getD_set_ne (by omega)]
        by_cases h0 : p = n
        · subst h0
          rw [getD_set_eq (by rw [hlen]; omega), if_pos (by omega)]
        · rw [getD_set_ne (by omega), ih hn']
          split_ifs <;> first | rfl | omega

/-! ### Claim C5 -/

/-- Claim C5: on an `INPUT_SIZE × INPUT_SIZE` interleaved RGBA buffer
with byte samples in `[0, 255]`, `preprocessImage` returns an array of
length `3 * INPUT_SIZE²` in channel-planar order — element `k` is
`R_k / 255`, element `pixelCount + k` is `G_k / 255`, element
`2 * pixelCount + k` is `B_k / 255` (alpha bytes `4k + 3` are never
read) — and every output value lies in `[0, 1]`. -/
theorem C5_preprocess_planar (data : List ℕ)
    (hlen : data.length = 4 * (INPUT_SIZE * INPUT_SIZE))
    (hbytes : ∀ n, n < data.length → data.getD n 0 ≤ 255) :
    (preprocessImage data).length = 3 * (INPUT_SIZE * INPUT_SIZE) ∧
    (∀ k, k < INPUT_SIZE * INPUT_SIZE →
      (preprocessImage data).getD k 0 = (data.getD (4 * k) 0 : ℚ) / 255 ∧
      (preprocessImage data).getD (INPUT_SIZE * INPUT_SIZE + k) 0 =
        (data.getD (4 * k + 1) 0 : ℚ) / 255 ∧
      (preprocessImage data).getD (2 * (INPUT_SIZE * INPUT_SIZE) + k) 0 =
        (data.getD (4 * k + 2) 0 : ℚ) / 255) ∧
    (∀ m, m < 3 * (INPUT_SIZE * INPUT_SIZE) →
      0 ≤ (preprocessImage data).getD m 0 ∧ (preprocessImage data).getD m 0 ≤ 1) := by
  have hdiv : data.length / 4 = INPUT_SIZE * INPUT_SIZE := by rw [hlen]; omega
  have hpe : preprocessImage data =
      fillPixels data (INPUT_SIZE * INPUT_SIZE) (INPUT_SIZE * INPUT_SIZE) := by
    rw [preprocessImage, hdiv]
  refine ⟨by rw [hpe, fillPixels_length], ?_, ?_⟩
  · intro k hk
    refine ⟨?_, ?_, ?_⟩
    · rw [hpe, fillPixels_getD _ _ _ le_rfl, if_pos hk]
    · rw [hpe, fillPixels_getD _ _ _ le_rfl, if_neg (by omega), if_pos (by omega),
        show INPUT_SIZE * INPUT_SIZE + k - INPUT_SIZE * INPUT_SIZE = k from by omega]
    · rw [hpe, fillPixels_getD _ _ _ le_rfl, if_neg (by omega), if_neg (by omega),
        if_pos (by omega),
        show 2 * (INPUT_SIZE * INPUT_SIZE) + k - 2 * (INPUT_SIZE * INPUT_SIZE) = k from by omega]
  · intro m hm
    rw [hpe, fillPixels_getD _ _ _ le_rfl]
    have hb255 : ∀ idx, idx < data.length →
        0 ≤ (data.getD idx 0 : ℚ) / 255 ∧ (data.getD idx 0 : ℚ) / 255 ≤ 1 := by
      intro idx hidx
      constructor
      · exact div_nonneg (Nat.cast_nonneg _) (by norm_num)
      · rw [div_le_one (by norm_num)]
        exact_mod_cast hbytes idx hidx
    split_ifs with h0 h1 h2
    · exact hb255 _ (by omega)
    · exact hb255 _ (by omega)
    · exact hb255 _ (by omega)
    · norm_num

/-- A constant mid-gray RGBA buffer of the full canvas size. -/
def c5Data : List ℕ := List.replicate (4 * (INPUT_SIZE * INPUT_SIZE)) 200

theorem C5_preprocess_planar_witness :
    c5Data.length = 4 * (INPUT_SIZE * INPUT_SIZE) ∧
    (preprocessImage c5Data).length = 3 * (INPUT_SIZE * INPUT_SIZE) :=
  ⟨by simp [c5Data],
   (C5_preprocess_planar c5Data (by simp [c5Data])
     (fun n _ => by simp only [c5Data]; rw [getD_replicate]; split <;> omega)).1⟩

/-! ### Claim C6: the motion gate -/

/-- The compare-and-update core of `checkMotion` (after the brightness
sample is computed): `diff = prev !== null ? |brightness - prev| : 0;
prevBrightness.current = brightness; return diff > BRIGHTNESS_THRESHOLD`.
Returned as the boolean result together with the updated baseline. -/
def checkMotionCore (brightness : ℚ) (prev : Option ℚ) : Bool × Option ℚ :=
  let diff := match prev with
    | some p => |brightness - p|
    | none => 0
  (decide (diff > BRIGHTNESS_THRESHOLD), some brightness)

/-- Claim C6: `checkMotion`'s compare-and-update step returns `false`
whenever the stored baseline is unset, regardless of the current
brightness; with a baseline it returns `true` iff
`|current - previous| > BRIGHTNESS_THRESHOLD`; and in both cases the
stored baseline becomes the current sample. -/
theorem C6_motion_gate (b : ℚ) (prev : Option ℚ) :
    (checkMotionCore b none).1 = false ∧
    (∀ p : ℚ, ((checkMotionCore b (some p)).1 = true ↔ |b - p| > BRIGHTNESS_THRESHOLD)) ∧
    (checkMotionCore b prev).2 = some b := by
  refine ⟨?_, ?_, rfl⟩
  · simp only [checkMotionCore, decide_eq_false_iff_not]
    norm_num [BRIGHTNESS_THRESHOLD]
  · intro p
    simp [checkMotionCore]

/-! ### Claims C2 and C9: the inference scheduler

The mutable refs of the detection loop are gathered into a state record
and the loop is modelled by an event step function: `.iter now` is one
`requestAnimationFrame` iteration reaching the throttle check at time
`now`, and `.complete r` is the in-flight `session.run` call finishing
with result `r`. The fields `inFlight` and `calls` are ghost
instrumentation: `inFlight` counts model calls started but not yet
finished and `calls` counts `session.run` invocations. -/

/-- The refs `isInferring`, `lastInferenceTime`, `detectionsRef`, plus
the two ghost counters. -/
structure SchedState where
  isInferring : Bool
  lastInferenceTime : ℚ
  detections : List Detection
  inFlight : ℕ
  calls : ℕ
deriving DecidableEq, Repr

/-- Initial ref values: `useRef(false)`, `useRef(0)`, `useRef([])`. -/
def schedInit : SchedState :=
  { isInferring := false, lastInferenceTime := 0, detections := [], inFlight := 0, calls := 0 }

/-- Scheduler events: a render-loop iteration at time `now`, or the
completion of the in-flight model call. -/
inductive SchedEvent where
  | iter (now : ℚ)
  | complete (result : Except String (List Detection))

def SchedEvent.isIter : SchedEvent → Bool
  | .iter _ => true
  | .complete _ => false

/-- One step of the detection loop. `.iter now` performs the throttle
check `!isInferring.current && now - lastInferenceTime.current >=
INFERENCE_INTERVAL_MS`; when it passes, `isInferring = true` and
`lastInferenceTime = now` are stored and the model call is issued.
`.complete r` is the call finishing: on success the detection set is
replaced (`detectionsRef.current = processOutput(...)`), on failure the
error is logged and swallowed, and in either case the `finally` clears
`isInferring`. -/
def schedStep (s : SchedState) : SchedEvent → SchedState
  | .iter now =>
    if s.isInferring = false ∧ now - s.lastInferenceTime ≥ INFERENCE_INTERVAL_MS then
      { s with isInferring := true, lastInferenceTime := now,
               inFlight := s.inFlight + 1, calls := s.calls + 1 }
    else s
  | .complete r =>
    if s.isInferring = true then
      match r with
      | .ok ds => { s with detections := ds, isInferring := false, inFlight := s.inFlight - 1 }
      | .error _ => { s with isInferring := false, inFlight := s.inFlight - 1 }
    else s

lemma schedStep_inFlight_inv {s : SchedState}
    (h : s.inFlight = if s.isInferring then 1 else 0) (e : SchedEvent) :
    (schedStep s e).inFlight = if (schedStep s e).isInferring then 1 else 0 := by
  cases e with
  | iter now =>
    by_cases hc : s.isInferring = false ∧ now - s.lastInferenceTime ≥ INFERENCE_INTERVAL_MS
    · have e : schedStep s (SchedEvent.iter now) =
          { s with isInferring := true, lastInferenceTime := now,
                   inFlight := s.inFlight + 1, calls := s.calls + 1 } := by
        simp only [schedStep]
        rw [if_pos hc]
      rw [e]
      simp [h, hc.1]
    · have e : schedStep s (SchedEvent.iter now) = s := by
        simp only [schedStep]
        rw [if_neg hc]
      rw [e]
      exact h
  | complete r =>
    by_cases hc : s.isInferring = true
    · cases r with
      | ok ds =>
        have e : schedStep s (SchedEvent.complete (Except.ok ds)) =
            { s with detections := ds, isInferring := false, inFlight := s.inFlight - 1 } := by
          simp only [schedStep]
          rw [if_pos hc]
        rw [e]
        simp [h, hc]
      | error msg =>
        have e : schedStep s (SchedEvent.complete (Except.error msg)) =
            { s with isInferring := false, inFlight := s.inFlight - 1 } := by
          simp only [schedStep]
          rw [if_pos hc]
        rw [e]
        simp [h, hc]
    · have e : schedStep s (SchedEvent.complete r) = s := by
        simp only [schedStep]
        rw [if_neg hc]
      rw [e]
      exact h

lemma schedTrace_inv (evs : List SchedEvent) :
    ∀ s : SchedState, s.inFlight = (if s.isInferring then 1 else 0) →
      (evs.foldl schedStep s).inFlight =
        if (evs.foldl schedStep s).isInferring then 1 else 0 := by
  induction evs with
  | nil => intro s h; exact h
  | cons e evs ih => intro s h; exact ih _ (schedStep_inFlight_inv h e)

lemma schedStep_nonIter_preserve (s : SchedState) (e : SchedEvent) (he : e.isIter = false) :
    (schedStep s e).calls = s.calls ∧
    (schedStep s e).lastInferenceTime = s.lastInferenceTime := by
  cases e with
  | iter now => simp [SchedEvent.isIter] at he
  | complete r =>
    simp only [schedStep]
    split
    · cases r <;> exact ⟨rfl, rfl⟩
    · exact ⟨rfl, rfl⟩

lemma schedTrace_nonIter_preserve (mid : List SchedEvent) :
    ∀ s : SchedState, (∀ e ∈ mid, e.isIter = false) →
      (mid.foldl schedStep s).calls = s.calls ∧
      (mid.foldl schedStep s).lastInferenceTime = s.lastInferenceTime := by
  induction mid with
  | nil => intro s _; exact ⟨rfl, rfl⟩
  | cons e mid ih =>
    intro s h
    obtain ⟨h1, h2⟩ := schedStep_nonIter_preserve s e (h e (List.mem_cons_self e mid))
    obtain ⟨h3, h4⟩ := ih (schedStep s e) (fun x hx => h x (List.mem_cons_of_mem e hx))
    exact ⟨h3.trans h1, h4.trans h2⟩

/-- Claim C2: (1) along every event trace from the initial state at most
one inference call is in flight; (2) a render-loop iteration while a
call is in flight, or less than `INFERENCE_INTERVAL_MS` after the last
inference start, changes nothing — the request is dropped, not queued;
(3) an iteration passing the throttle check followed, after any
completions but no other iterations, by a second iteration less than
`INFERENCE_INTERVAL_MS` after it results in exactly one model call, the
second iteration being a no-op. -/
theorem C2_at_most_one_inflight :
    (∀ evs : List SchedEvent, (evs.foldl schedStep schedInit).inFlight ≤ 1) ∧
    (∀ (s : SchedState) (now : ℚ),
      (s.isInferring = true ∨ now - s.lastInferenceTime < INFERENCE_INTERVAL_MS) →
      schedStep s (SchedEvent.iter now) = s) ∧
    (∀ (s : SchedState) (t1 t2 : ℚ) (mid : List SchedEvent),
      s.isInferring = false → t1 - s.lastInferenceTime ≥ INFERENCE_INTERVAL_MS →
      t2 - t1 < INFERENCE_INTERVAL_MS → (∀ e ∈ mid, e.isIter = false) →
      schedStep (mid.foldl schedStep (schedStep s (SchedEvent.iter t1))) (SchedEvent.iter t2)
        = mid.foldl schedStep (schedStep s (SchedEvent.iter t1)) ∧
      (schedStep (mid.foldl schedStep (schedStep s (SchedEvent.iter t1)))
        (SchedEvent.iter t2)).calls = s.calls + 1) := by
  refine ⟨?_, ?_, ?_⟩
  · intro evs
    rw [schedTrace_inv evs schedInit rfl]
    split <;> norm_num
  · intro s now h
    simp only [schedStep]
    rw [if_neg]
    rintro ⟨h1, h2⟩
    rcases h with h | h
    · rw [h1] at h; cases h
    · exact absurd h2 (not_le.2 h)
  · intro s t1 t2 mid h1 h2 h3 hmid
    have hstart : schedStep s (SchedEvent.iter t1) =
        { s with isInferring := true, lastInferenceTime := t1,
                 inFlight := s.inFlight + 1, calls := s.calls + 1 } := by
      simp only [schedStep]
      rw [if_pos ⟨h1, h2⟩]
    rw [hstart]
    obtain ⟨hcalls, hlast⟩ := schedTrace_nonIter_preserve mid
      { s with isInferring := true, lastInferenceTime := t1,
               inFlight := s.inFlight + 1, calls := s.calls + 1 } hmid
    have hnoop : schedStep (mid.foldl schedStep
        { s with isInferring := true, lastInferenceTime := t1,
                 inFlight := s.inFlight + 1, calls := s.calls + 1 })
        (SchedEvent.iter t2) = mid.foldl schedStep
        { s with isInferring := true, lastInferenceTime := t1,
                 inFlight := s.inFlight + 1, calls := s.calls + 1 } := by
      simp only [schedStep]
      rw [if_neg]
      rintro ⟨-, hge⟩
      rw [hlast] at hge
      exact absurd hge (not_le.2 h3)
    refine ⟨hnoop, ?_⟩
    rw [hnoop, hcalls]

theorem C2_at_most_one_inflight_witness :
    (schedStep ([SchedEvent.complete (Except.ok [c1Detection])].foldl schedStep
        (schedStep schedInit (SchedEvent.iter 500))) (SchedEvent.iter 999)).calls
      = schedInit.calls + 1 :=
  (C2_at_most_one_inflight.2.2 schedInit 500 999
    [SchedEvent.complete (Except.ok [c1Detection])]
    rfl (by norm_num [schedInit, INFERENCE_INTERVAL_MS])
    (by norm_num [INFERENCE_INTERVAL_MS])
    (by simp [SchedEvent.isIter])).2

/-- Claim C9: when the model call started at time `now` fails, the error
is swallowed (the step is total — the loop does not crash), the stored
detection set is unchanged, the in-flight flag is cleared, and at the
next throttle window `t2` the loop retries: a second call starts, and on
its success the detection set is replaced. -/
theorem C9_error_swallowed (s : SchedState) (now t2 : ℚ) (msg : String) (ds : List Detection)
    (h1 : s.isInferring = false)
    (h2 : now - s.lastInferenceTime ≥ INFERENCE_INTERVAL_MS)
    (h3 : t2 - now ≥ INFERENCE_INTERVAL_MS) :
    (schedStep (schedStep s (SchedEvent.iter now))
        (SchedEvent.complete (Except.error msg))).detections = s.detections ∧
    (schedStep (schedStep s (SchedEvent.iter now))
        (SchedEvent.complete (Except.error msg))).isInferring = false ∧
    (schedStep (schedStep (schedStep s (SchedEvent.iter now))
        (SchedEvent.complete (Except.error msg))) (SchedEvent.iter t2)).calls = s.calls + 2 ∧
    (schedStep (schedStep (schedStep (schedStep s (SchedEvent.iter now))
        (SchedEvent.complete (Except.error msg))) (SchedEvent.iter t2))
        (SchedEvent.complete (Except.ok ds))).detections = ds := by
  have e1 : schedStep s (SchedEvent.iter now) =
      { s with isInferring := true, lastInferenceTime := now,
               inFlight := s.inFlight + 1, calls := s.calls + 1 } := by
    simp only [schedStep]
    rw [if_pos ⟨h1, h2⟩]
  have e2 : schedStep (schedStep s (SchedEvent.iter now))
      (SchedEvent.complete (Except.error msg)) =
      { s with isInferring := false, lastInferenceTime := now,
               inFlight := s.inFlight + 1 - 1, calls := s.calls + 1 } := by
    rw [e1]
    simp [schedStep]
  have e3 : schedStep (schedStep (schedStep s (SchedEvent.iter now))
      (SchedEvent.complete (Except.error msg))) (SchedEvent.iter t2) =
      { s with isInferring := true, lastInferenceTime := t2,
               inFlight := s.inFlight + 1 - 1 + 1, calls := s.calls + 1 + 1 } := by
    rw [e2]
    simp [schedStep, h3]
  refine ⟨by rw [e2], by rw [e2], by rw [e3], ?_⟩
  rw [e3]
  simp [schedStep]

theorem C9_error_swallowed_witness :
    schedInit.isInferring = false ∧
    (schedStep (schedStep schedInit (SchedEvent.iter 500))
        (SchedEvent.complete (Except.error "boom"))).detections = schedInit.detections :=
  ⟨rfl, (C9_error_swallowed schedInit 500 1000 "boom" [c1Detection]
    rfl (by norm_num [schedInit, INFERENCE_INTERVAL_MS])
    (by norm_num [INFERENCE_INTERVAL_MS])).1⟩

/-! ### Claim C3: the mode controller

The MotionDetectionCamera mode state: `modelEnabled` (React state),
the pending auto-disable timer `modelTimeout` (represented by the
absolute time at which it is scheduled to fire), the motion baseline
`prevBrightness`, and `detectionsRef`. Events: a scan trigger (motion
detected in the motion loop, or `startManualScan`) at time `t` — both
run `setModelEnabled(true); clearTimeout(modelTimeout);
modelTimeout = setTimeout(..., MODEL_DURATION_MS)`; the timer firing at
its scheduled time `t` — `setModelEnabled(false);
prevBrightness.current = null`, upon which the start/stop effect cancels
the detection loop and clears `detectionsRef`; and a detection-loop
inference completing with detections `ds`, which replaces the stored
set while scanning. A fire event whose time does not match the pending
deadline is a cancelled (replaced) timer and does nothing. -/

/-- Mode-controller state of MotionDetectionCamera. -/
structure MotionState where
  modelEnabled : Bool
  modelTimeout : Option ℕ
  prevBrightness : Option ℚ
  detections : List Detection
deriving DecidableEq, Repr

/-- Mode-controller events: scan trigger, timer fire, inference result. -/
inductive ModeEvent where
  | trigger (t : ℕ)
  | fire (t : ℕ)
  | infer (ds : List Detection)

def ModeEvent.isInfer : ModeEvent → Bool
  | .infer _ => true
  | _ => false

/-- One step of the mode controller. -/
def modeStep (s : MotionState) : ModeEvent → MotionState
  | .trigger t =>
    { s with modelEnabled := true, modelTimeout := some (t + MODEL_DURATION_MS) }
  | .fire t =>
    if s.modelTimeout = some t then
      { modelEnabled := false, modelTimeout := none, prevBrightness := none, detections := [] }
    else s
  | .infer ds => if s.modelEnabled = true then { s with detections := ds } else s

lemma modeTrace_infer_preserve (mid : List ModeEvent) :
    ∀ s : MotionState, (∀ e ∈ mid, e.isInfer = true) →
      (mid.foldl modeStep s).modelTimeout = s.modelTimeout := by
  induction mid with
  | nil => intro s _; rfl
  | cons e mid ih =>
    intro s h
    have he := h e (List.mem_cons_self e mid)
    have h' := fun x hx => h x (List.mem_cons_of_mem e hx)
    cases e with
    | trigger t => simp [ModeEvent.isInfer] at he
    | fire t => simp [ModeEvent.isInfer] at he
    | infer ds =>
      rw [List.foldl_cons, ih _ h']
      simp only [modeStep]
      split <;> rfl

/-- Claim C3: if the mode goes Idle → Scanning at time `T` (a motion or
manual trigger from a disabled state) and no further trigger or timer
event occurs before the scheduled deadline — only inference completions
— then when the timer fires at `T + MODEL_DURATION_MS` the mode is back
to Idle, the motion baseline is reset to unset, the stored detection set
is empty, and no timer is pending. -/
theorem C3_mode_timeout (s0 : MotionState) (T : ℕ) (mid : List ModeEvent)
    (_hidle : s0.modelEnabled = false)
    (hmid : ∀ e ∈ mid, e.isInfer = true) :
    (modeStep (mid.foldl modeStep (modeStep s0 (ModeEvent.trigger T)))
        (ModeEvent.fire (T + MODEL_DURATION_MS))).modelEnabled = false ∧
    (modeStep (mid.foldl modeStep (modeStep s0 (ModeEvent.trigger T)))
        (ModeEvent.fire (T + MODEL_DURATION_MS))).prevBrightness = none ∧
    (modeStep (mid.foldl modeStep (modeStep s0 (ModeEvent.trigger T)))
        (ModeEvent.fire (T + MODEL_DURATION_MS))).detections = [] ∧
    (modeStep (mid.foldl modeStep (modeStep s0 (ModeEvent.trigger T)))
        (ModeEvent.fire (T + MODEL_DURATION_MS))).modelTimeout = none := by
  have htm : (mid.foldl modeStep (modeStep s0 (ModeEvent.trigger T))).modelTimeout =
      some (T + MODEL_DURATION_MS) := by
    rw [modeTrace_infer_preserve mid _ hmid]
    rfl
  have efire : ∀ (s : MotionState) (t : ℕ), modeStep s (ModeEvent.fire t) =
      if s.modelTimeout = some t then
        { modelEnabled := false, modelTimeout := none, prevBrightness := none,
          detections := [] }
      else s := fun _ _ => rfl
  have e : modeStep (mid.foldl modeStep (modeStep s0 (ModeEvent.trigger T)))
      (ModeEvent.fire (T + MODEL_DURATION_MS)) =
      { modelEnabled := false, modelTimeout := none, prevBrightness := none,
        detections := [] } := by
    rw [efire, if_pos htm]
  rw [e]
  exact ⟨rfl, rfl, rfl, rfl⟩

/-- A concrete idle state with a stale motion baseline. -/
def c3Init : MotionState :=
  { modelEnabled := false, modelTimeout := none, prevBrightness := some 100, detections := [] }

theorem C3_mode_timeout_witness :
    c3Init.modelEnabled = false ∧
    (modeStep ([ModeEvent.infer [c1Detection]].foldl modeStep
        (modeStep c3Init (ModeEvent.trigger 0))) (ModeEvent.fire (0 + MODEL_DURATION_MS))).prevBrightness = none ∧
    (modeStep ([ModeEvent.infer [c1Detection]].foldl modeStep
        (modeStep c3Init (ModeEvent.trigger 0))) (ModeEvent.fire (0 + MODEL_DURATION_MS))).detections = [] :=
  ⟨rfl,
   (C3_mode_timeout c3Init 0 [ModeEvent.infer [c1Detection]] rfl
     (by simp [ModeEvent.isInfer])).2.1,
   (C3_mode_timeout c3Init 0 [ModeEvent.infer [c1Detection]] rfl
     (by simp [ModeEvent.isInfer])).2.2.1⟩

end LabInventory
